import Mathlib

/-!
Verification development for the cross-chain-flow-radar repository.

The repository has two Python source files:
* `src/cloudrun/main.py` — the Cloud Run service: the Evidence Aggregator
  (`_fetch_contrast_rows`, a BigQuery query), the Anomaly Classifier
  (`_fetch_anom_bridges`), the fallback narrative (`_fallback_summary`),
  the briefing upsert (`_merge_briefing`) and the `explain` entrypoint.
* `src/attest/attest.py` — the attestation publisher: `keccak32`,
  `decide_has_anomaly` and the per-row attestation field derivation.

The embedding below translates those functions into Lean.  SQL aggregates
follow BigQuery semantics: `SUM`/`AVG` over an empty input is NULL (here
`Option.none`), `FLOAT64` arithmetic is modelled with exact rationals `ℚ`
(so a NaN or an infinity simply cannot be produced; `SAFE_DIVIDE` with a
NULL or zero denominator yields NULL), `GROUP BY` groups are keyed by the
list of distinct keys in order of first occurrence, and `ORDER BY` is a
stable insertion sort on exactly the keys that appear in the query text.
External collaborators (BigQuery transport, the generative model, Telegram,
`json.loads`, `Web3.keccak`) appear as explicit oracle parameters.
-/

/-- One warehouse row of `flows_daily`: (day, chain, bridge, token) with USD
amounts and counters.  Days are modelled as integers so that
`DATE_SUB(d, INTERVAL k DAY)` is `d - k`. -/
structure FlowRecord where
  day : Int
  chain : String
  bridge : String
  token_symbol : String
  in_amount_usd : ℚ
  out_amount_usd : ℚ
  net_amount_usd : ℚ
  tx_count : Int
  unique_wallets : Int
deriving DecidableEq, Repr

/-- BigQuery `SUM` over a column: NULL on empty input, otherwise the sum. -/
def sqlSumQ (l : List ℚ) : Option ℚ :=
  if l.isEmpty then none else some l.sum

/-- BigQuery `SUM` over an integer column. -/
def sqlSumI (l : List Int) : Option Int :=
  if l.isEmpty then none else some l.sum

/-- BigQuery `AVG`: NULL on empty input, otherwise the arithmetic mean. -/
def sqlAvgQ (l : List ℚ) : Option ℚ :=
  if l.isEmpty then none else some (l.sum / l.length)

/-- `NULLIF(x, 0)` on a nullable FLOAT64. -/
def nullifZero (x : Option ℚ) : Option ℚ :=
  match x with
  | none => none
  | some a => if a = 0 then none else some a

/-- NULL-propagating subtraction on nullable FLOAT64. -/
def optSub (x y : Option ℚ) : Option ℚ :=
  match x, y with
  | some a, some b => some (a - b)
  | _, _ => none

/-- `SAFE_DIVIDE`: NULL if either operand is NULL or the divisor is zero. -/
def safeDivide (x y : Option ℚ) : Option ℚ :=
  match x, y with
  | some a, some b => if b = 0 then none else some (a / b)
  | _, _ => none

/-- The percentage-delta expression of the query:
`SAFE_DIVIDE(today - ref, NULLIF(ref, 0))`. -/
def pctOf (today ref : Option ℚ) : Option ℚ :=
  safeDivide (optSub today ref) (nullifZero ref)

/-- One output row of `_fetch_contrast_rows` (the `SELECT` list of the
query: level tag, key columns, today / previous-day / 7-day aggregates and
the three derived ratios). -/
structure ContrastRow where
  level : String
  bridge : String
  token_symbol : String
  day : Int
  chain : String
  in_usd_d : Option ℚ
  out_usd_d : Option ℚ
  net_usd_d : Option ℚ
  txs_d : Option Int
  uw_d : Option Int
  in_usd_p1 : Option ℚ
  out_usd_p1 : Option ℚ
  net_usd_p1 : Option ℚ
  txs_p1 : Option Int
  uw_p1 : Option Int
  in_usd_7avg : Option ℚ
  out_usd_7avg : Option ℚ
  net_usd_7avg : Option ℚ
  txs_7avg : Option ℚ
  uw_7avg : Option ℚ
  net_dod_pct : Option ℚ
  net_vs7d_pct : Option ℚ
  net_share_of_chain : Option ℚ
deriving DecidableEq, Repr

/-- Rows of `flows_daily` matching `day = d AND chain = c`. -/
def flowsOn (flows : List FlowRecord) (d : Int) (c : String) : List FlowRecord :=
  flows.filter (fun r => r.day == d && r.chain == c)

/-- Rows of `flows_daily` in the trailing window
`day BETWEEN DATE_SUB(d, INTERVAL 7 DAY) AND DATE_SUB(d, INTERVAL 1 DAY)`
for the chain. -/
def flowsWindow (flows : List FlowRecord) (d : Int) (c : String) : List FlowRecord :=
  flows.filter (fun r => r.chain == c && d - 7 ≤ r.day && r.day ≤ d - 1)

/-- The distinct days (in order of first occurrence) present in a row set:
the groups of the inner `GROUP BY day` of `chain_7d`. -/
def daysOf (rows : List FlowRecord) : List Int :=
  (rows.map (fun r => r.day)).dedup

/-- The `(bridge, token_symbol)` grouping key. -/
def keyOf (r : FlowRecord) : String × String :=
  (r.bridge, r.token_symbol)

/-- The distinct `(bridge, token_symbol)` keys (in order of first
occurrence) of a row set: the groups of `GROUP BY bridge, token_symbol`. -/
def keysOf (rows : List FlowRecord) : List (String × String) :=
  (rows.map keyOf).dedup

/-- The rows of one `(bridge, token_symbol)` group. -/
def groupOf (rows : List FlowRecord) (k : String × String) : List FlowRecord :=
  rows.filter (fun r => keyOf r == k)

/-- The `chain_ctx` row of `_fetch_contrast_rows`: chain-level totals for
today, the previous day and the 7-day window, with the two percentage
deltas; `net_share_of_chain` is `CAST(NULL AS FLOAT64)`. -/
def chainCtx (flows : List FlowRecord) (d : Int) (c : String) : ContrastRow :=
  let today := flowsOn flows d c
  let prev1 := flowsOn flows (d - 1) c
  let win := flowsWindow flows d c
  let days := daysOf win
  let net_d := sqlSumQ (today.map (fun r => r.net_amount_usd))
  let net_p1 := sqlSumQ (prev1.map (fun r => r.net_amount_usd))
  let net_7 := sqlAvgQ (days.map (fun dd =>
    (((win.filter (fun r => r.day == dd)).map (fun r => r.net_amount_usd)).sum)))
  { level := "_CHAIN"
    bridge := "_TOTAL"
    token_symbol := "_ALL"
    day := d
    chain := c
    in_usd_d := sqlSumQ (today.map (fun r => r.in_amount_usd))
    out_usd_d := sqlSumQ (today.map (fun r => r.out_amount_usd))
    net_usd_d := net_d
    txs_d := sqlSumI (today.map (fun r => r.tx_count))
    uw_d := sqlSumI (today.map (fun r => r.unique_wallets))
    in_usd_p1 := sqlSumQ (prev1.map (fun r => r.in_amount_usd))
    out_usd_p1 := sqlSumQ (prev1.map (fun r => r.out_amount_usd))
    net_usd_p1 := net_p1
    txs_p1 := sqlSumI (prev1.map (fun r => r.tx_count))
    uw_p1 := sqlSumI (prev1.map (fun r => r.unique_wallets))
    in_usd_7avg := sqlAvgQ (days.map (fun dd =>
      (((win.filter (fun r => r.day == dd)).map (fun r => r.in_amount_usd)).sum)))
    out_usd_7avg := sqlAvgQ (days.map (fun dd =>
      (((win.filter (fun r => r.day == dd)).map (fun r => r.out_amount_usd)).sum)))
    net_usd_7avg := net_7
    txs_7avg := sqlAvgQ (days.map (fun dd =>
      ((((win.filter (fun r => r.day == dd)).map (fun r => r.tx_count)).sum : Int) : ℚ)))
    uw_7avg := sqlAvgQ (days.map (fun dd =>
      ((((win.filter (fun r => r.day == dd)).map (fun r => r.unique_wallets)).sum : Int) : ℚ)))
    net_dod_pct := pctOf net_d net_p1
    net_vs7d_pct := pctOf net_d net_7
    net_share_of_chain := none }

/-- `bridge_today`'s net for one group (the group is non-empty, so the SQL
`SUM` is the plain sum). -/
def bridgeNetD (flows : List FlowRecord) (d : Int) (c : String)
    (k : String × String) : ℚ :=
  ((groupOf (flowsOn flows d c) k).map (fun r => r.net_amount_usd)).sum

/-- `chain_total_net`: `SUM(net_usd_d)` over the `bridge_today` groups;
NULL when there are no groups. -/
def chainTotalNet (flows : List FlowRecord) (d : Int) (c : String) : Option ℚ :=
  sqlSumQ ((keysOf (flowsOn flows d c)).map (bridgeNetD flows d c))

/-- One `bridge_ctx` row of `_fetch_contrast_rows` for a `bridge_today`
group key `k`.  `bridge_prev1` and `bridge_7d` are grouped subqueries
joined with `LEFT JOIN ... USING(bridge, token_symbol)`: a missing key
yields NULL columns.  The inner query of `bridge_7d` already groups by the
same key, so the outer `AVG` averages a single row and equals the window
sum. -/
def bridgeRow (flows : List FlowRecord) (d : Int) (c : String)
    (k : String × String) : ContrastRow :=
  let grp := groupOf (flowsOn flows d c) k
  let grpP1 := groupOf (flowsOn flows (d - 1) c) k
  let grpW := groupOf (flowsWindow flows d c) k
  { level := "_BRIDGE"
    bridge := k.1
    token_symbol := k.2
    day := d
    chain := c
    in_usd_d := sqlSumQ (grp.map (fun r => r.in_amount_usd))
    out_usd_d := sqlSumQ (grp.map (fun r => r.out_amount_usd))
    net_usd_d := sqlSumQ (grp.map (fun r => r.net_amount_usd))
    txs_d := sqlSumI (grp.map (fun r => r.tx_count))
    uw_d := sqlSumI (grp.map (fun r => r.unique_wallets))
    in_usd_p1 := sqlSumQ (grpP1.map (fun r => r.in_amount_usd))
    out_usd_p1 := sqlSumQ (grpP1.map (fun r => r.out_amount_usd))
    net_usd_p1 := sqlSumQ (grpP1.map (fun r => r.net_amount_usd))
    txs_p1 := none
    uw_p1 := none
    in_usd_7avg := sqlSumQ (grpW.map (fun r => r.in_amount_usd))
    out_usd_7avg := sqlSumQ (grpW.map (fun r => r.out_amount_usd))
    net_usd_7avg := sqlSumQ (grpW.map (fun r => r.net_amount_usd))
    txs_7avg := none
    uw_7avg := none
    net_dod_pct := pctOf (sqlSumQ (grp.map (fun r => r.net_amount_usd)))
      (sqlSumQ (grpP1.map (fun r => r.net_amount_usd)))
    net_vs7d_pct := pctOf (sqlSumQ (grp.map (fun r => r.net_amount_usd)))
      (sqlSumQ (grpW.map (fun r => r.net_amount_usd)))
    net_share_of_chain := safeDivide (sqlSumQ (grp.map (fun r => r.net_amount_usd)))
      (nullifZero (chainTotalNet flows d c)) }

/-- All `bridge_ctx` rows, one per `bridge_today` group. -/
def bridgeCtx (flows : List FlowRecord) (d : Int) (c : String) : List ContrastRow :=
  (keysOf (flowsOn flows d c)).map (bridgeRow flows d c)

/-- The first `ORDER BY` key: `CASE WHEN level='_CHAIN' THEN 0 ELSE 1 END`. -/
def levelKey (r : ContrastRow) : Nat :=
  if r.level == "_CHAIN" then 0 else 1

/-- The second `ORDER BY` key: `ABS(COALESCE(net_usd_d, 0))`, descending. -/
def absNetKey (r : ContrastRow) : ℚ :=
  |r.net_usd_d.getD 0|

/-- The row order of the final `ORDER BY`: level key ascending, then
absolute today-net descending.  The query names no further key, so rows
that tie on both keys are unordered. -/
def rowLE (a b : ContrastRow) : Prop :=
  levelKey a < levelKey b ∨ (levelKey a = levelKey b ∧ absNetKey b ≤ absNetKey a)

instance : DecidableRel rowLE := fun a b => by
  unfold rowLE; infer_instance

instance : IsTotal ContrastRow rowLE where
  total a b := by
    unfold rowLE
    rcases lt_trichotomy (levelKey a) (levelKey b) with h | h | h
    · exact Or.inl (Or.inl h)
    · rcases le_total (absNetKey b) (absNetKey a) with h2 | h2
      · exact Or.inl (Or.inr ⟨h, h2⟩)
      · exact Or.inr (Or.inr ⟨h.symm, h2⟩)
    · exact Or.inr (Or.inl h)

instance : IsTrans ContrastRow rowLE where
  trans a b c hab hbc := by
    unfold rowLE at *
    rcases hab with h1 | ⟨h1, h1'⟩
    · rcases hbc with h2 | ⟨h2, _⟩
      · exact Or.inl (h1.trans h2)
      · exact Or.inl (h2 ▸ h1)
    · rcases hbc with h2 | ⟨h2, h2'⟩
      · exact Or.inl (h1 ▸ h2)
      · exact Or.inr ⟨h1.trans h2, h2'.trans h1'⟩

/-- `_fetch_contrast_rows`: the single `chain_ctx` row `UNION ALL` the
`bridge_ctx` rows, ordered by the final `ORDER BY`. -/
def fetchContrastRows (flows : List FlowRecord) (d : Int) (c : String) :
    List ContrastRow :=
  List.insertionSort rowLE (chainCtx flows d c :: bridgeCtx flows d c)

/-! ## Supporting lemmas about the Evidence Aggregator -/

theorem sum_map_filter_split {α : Type} (p : α → Bool) (f : α → ℚ) (l : List α) :
    ((l.filter p).map f).sum + ((l.filter (fun a => !(p a))).map f).sum
      = (l.map f).sum := by
  induction l with
  | nil => simp
  | cons a l ih =>
    by_cases h : p a <;> simp [List.filter_cons, h] <;> linarith [ih]

theorem sum_groups_of_keys {α κ : Type} [BEq κ] [LawfulBEq κ] (key : α → κ) (f : α → ℚ) :
    ∀ (keys : List κ) (rows : List α), keys.Nodup → (∀ r ∈ rows, key r ∈ keys) →
    (keys.map (fun k => ((rows.filter (fun r => key r == k)).map f).sum)).sum
      = (rows.map f).sum := by
  intro keys
  induction keys with
  | nil =>
    intro rows _ hcov
    have : rows = [] := by
      rw [List.eq_nil_iff_forall_not_mem]
      intro a ha
      exact absurd (hcov a ha) (List.not_mem_nil _)
    simp [this]
  | cons k ks ih =>
    intro rows hnd hcov
    have hknotks : k ∉ ks := (List.nodup_cons.mp hnd).1
    have hndks : ks.Nodup := (List.nodup_cons.mp hnd).2
    have hrest : ∀ k' ∈ ks,
        rows.filter (fun r => key r == k')
          = (rows.filter (fun r => !(key r == k))).filter (fun r => key r == k') := by
      intro k' hk'
      have hk'k : k' ≠ k := fun he => hknotks (he ▸ hk')
      rw [List.filter_filter]
      apply List.filter_congr
      intro a _
      by_cases h : key a = k'
      · simp [h, hk'k]
      · simp [h]
    have hcov' : ∀ r ∈ rows.filter (fun r => !(key r == k)), key r ∈ ks := by
      intro r hr
      rcases List.mem_filter.mp hr with ⟨hrm, hneq⟩
      have := hcov r hrm
      rcases List.mem_cons.mp this with h | h
      · simp [h] at hneq
      · exact h
    have hmapeq : ks.map (fun k' => ((rows.filter (fun r => key r == k')).map f).sum)
        = ks.map (fun k' =>
            (((rows.filter (fun r => !(key r == k))).filter (fun r => key r == k')).map f).sum) := by
      apply List.map_congr_left
      intro k' hk'
      rw [hrest k' hk']
    rw [List.map_cons, List.sum_cons, hmapeq,
      ih (rows.filter (fun r => !(key r == k))) hndks hcov',
      sum_map_filter_split (fun r => key r == k) f rows]

theorem sum_over_keysOf (rows : List FlowRecord) (f : FlowRecord → ℚ) :
    ((keysOf rows).map (fun k => ((groupOf rows k).map f).sum)).sum
      = (rows.map f).sum := by
  unfold groupOf
  apply sum_groups_of_keys keyOf f (keysOf rows) rows (List.nodup_dedup _)
  intro r hr
  exact List.mem_dedup.mpr (List.mem_map.mpr ⟨r, hr, rfl⟩)

theorem mem_keysOf_group_ne_nil {rows : List FlowRecord} {k : String × String}
    (hk : k ∈ keysOf rows) : groupOf rows k ≠ [] := by
  rcases List.mem_map.mp (List.mem_dedup.mp hk) with ⟨r, hr, hkey⟩
  intro hnil
  have : r ∈ groupOf rows k := by
    apply List.mem_filter.mpr
    exact ⟨hr, by simp [hkey]⟩
  simp [hnil] at this

theorem keysOf_eq_nil_iff (rows : List FlowRecord) : keysOf rows = [] ↔ rows = [] := by
  unfold keysOf
  rw [List.dedup_eq_nil, List.map_eq_nil_iff]

theorem sqlSumQ_ne_nil {l : List ℚ} (h : l ≠ []) : sqlSumQ l = some l.sum := by
  unfold sqlSumQ
  simp [List.isEmpty_iff, h]

theorem bridgeCtx_mem_iff {flows : List FlowRecord} {d : Int} {c : String}
    {b : ContrastRow} :
    b ∈ bridgeCtx flows d c ↔
      ∃ k ∈ keysOf (flowsOn flows d c), b = bridgeRow flows d c k := by
  unfold bridgeCtx
  constructor
  · intro hb
    rcases List.mem_map.mp hb with ⟨k, hk, hbk⟩
    exact ⟨k, hk, hbk.symm⟩
  · rintro ⟨k, hk, rfl⟩
    exact List.mem_map.mpr ⟨k, hk, rfl⟩

theorem bridgeRow_level (flows : List FlowRecord) (d : Int) (c : String)
    (k : String × String) : (bridgeRow flows d c k).level = "_BRIDGE" := rfl

theorem chainCtx_level (flows : List FlowRecord) (d : Int) (c : String) :
    (chainCtx flows d c).level = "_CHAIN" := rfl

theorem bridgeRow_net_usd_d {flows : List FlowRecord} {d : Int} {c : String}
    {k : String × String} (hk : k ∈ keysOf (flowsOn flows d c)) :
    (bridgeRow flows d c k).net_usd_d = some (bridgeNetD flows d c k) := by
  have hne : groupOf (flowsOn flows d c) k ≠ [] := mem_keysOf_group_ne_nil hk
  have : (groupOf (flowsOn flows d c) k).map (fun r => r.net_amount_usd) ≠ [] := by
    simpa [List.map_eq_nil_iff] using hne
  show sqlSumQ _ = _
  rw [sqlSumQ_ne_nil this]
  rfl

theorem pctOf_ref_none (t : Option ℚ) : pctOf t none = none := by
  cases t <;> rfl

theorem pctOf_ref_zero (t : Option ℚ) : pctOf t (some 0) = none := by
  cases t <;> simp [pctOf, nullifZero, safeDivide, optSub]

theorem pctOf_today_none (p : Option ℚ) : pctOf none p = none := by
  cases p <;> simp [pctOf, nullifZero, safeDivide, optSub]

theorem pctOf_some {t p : ℚ} (hp : p ≠ 0) :
    pctOf (some t) (some p) = some ((t - p) / p) := by
  simp [pctOf, nullifZero, safeDivide, optSub, hp]

theorem pctOf_eq_some {today ref : Option ℚ} {q : ℚ}
    (h : pctOf today ref = some q) :
    ∃ t p, today = some t ∧ ref = some p ∧ p ≠ 0 ∧ q = (t - p) / p := by
  cases today with
  | none => rw [pctOf_today_none] at h; exact absurd h (by simp)
  | some t =>
    cases ref with
    | none => rw [pctOf_ref_none] at h; exact absurd h (by simp)
    | some p =>
      by_cases hp : p = 0
      · subst hp; rw [pctOf_ref_zero] at h; exact absurd h (by simp)
      · rw [pctOf_some hp] at h
        exact ⟨t, p, rfl, rfl, hp, (Option.some_inj.mp h).symm⟩

theorem chainCtx_dod (flows : List FlowRecord) (d : Int) (c : String) :
    (chainCtx flows d c).net_dod_pct
      = pctOf (chainCtx flows d c).net_usd_d (chainCtx flows d c).net_usd_p1 := rfl

theorem chainCtx_vs7d (flows : List FlowRecord) (d : Int) (c : String) :
    (chainCtx flows d c).net_vs7d_pct
      = pctOf (chainCtx flows d c).net_usd_d (chainCtx flows d c).net_usd_7avg := rfl

theorem bridgeRow_dod (flows : List FlowRecord) (d : Int) (c : String)
    (k : String × String) :
    (bridgeRow flows d c k).net_dod_pct
      = pctOf (bridgeRow flows d c k).net_usd_d (bridgeRow flows d c k).net_usd_p1 := rfl

theorem bridgeRow_vs7d (flows : List FlowRecord) (d : Int) (c : String)
    (k : String × String) :
    (bridgeRow flows d c k).net_vs7d_pct
      = pctOf (bridgeRow flows d c k).net_usd_d (bridgeRow flows d c k).net_usd_7avg := rfl

theorem mem_fetchContrastRows_iff {flows : List FlowRecord} {d : Int} {c : String}
    {row : ContrastRow} :
    row ∈ fetchContrastRows flows d c ↔
      row = chainCtx flows d c ∨ row ∈ bridgeCtx flows d c := by
  unfold fetchContrastRows
  rw [(List.perm_insertionSort rowLE _).mem_iff, List.mem_cons]

theorem mem_fetch_pct_shape {flows : List FlowRecord} {d : Int} {c : String}
    {row : ContrastRow} (hrow : row ∈ fetchContrastRows flows d c) :
    row.net_dod_pct = pctOf row.net_usd_d row.net_usd_p1 ∧
    row.net_vs7d_pct = pctOf row.net_usd_d row.net_usd_7avg := by
  rcases mem_fetchContrastRows_iff.mp hrow with h | h
  · subst h
    exact ⟨chainCtx_dod flows d c, chainCtx_vs7d flows d c⟩
  · rcases bridgeCtx_mem_iff.mp h with ⟨k, _, rfl⟩
    exact ⟨bridgeRow_dod flows d c k, bridgeRow_vs7d flows d c k⟩

/-! ## Claim theorems: C1 and C3 -/

/-- C1: in every `ContrastRow` produced by the Evidence Aggregator,
`net_dod_pct` is null whenever the previous-day reference net is zero or
absent and `net_vs7d_pct` is null whenever the 7-day-average net is zero
or absent; when the reference is nonzero (and today's net is present) the
field equals `(today - reference) / reference`; and every non-null value
of either field is such a finite ratio with a nonzero reference, so
neither field is ever NaN or infinite. -/
theorem contrast_pct_null_safe (flows : List FlowRecord) (d : Int) (c : String)
    (row : ContrastRow) (hrow : row ∈ fetchContrastRows flows d c) :
    ((row.net_usd_p1 = none ∨ row.net_usd_p1 = some 0) → row.net_dod_pct = none)
  ∧ (∀ t p, row.net_usd_d = some t → row.net_usd_p1 = some p → p ≠ 0 →
      row.net_dod_pct = some ((t - p) / p))
  ∧ (∀ q, row.net_dod_pct = some q →
      ∃ t p, row.net_usd_d = some t ∧ row.net_usd_p1 = some p ∧ p ≠ 0 ∧ q = (t - p) / p)
  ∧ ((row.net_usd_7avg = none ∨ row.net_usd_7avg = some 0) → row.net_vs7d_pct = none)
  ∧ (∀ t p, row.net_usd_d = some t → row.net_usd_7avg = some p → p ≠ 0 →
      row.net_vs7d_pct = some ((t - p) / p))
  ∧ (∀ q, row.net_vs7d_pct = some q →
      ∃ t p, row.net_usd_d = some t ∧ row.net_usd_7avg = some p ∧ p ≠ 0 ∧ q = (t - p) / p) := by
  obtain ⟨hdod, hvs⟩ := mem_fetch_pct_shape hrow
  refine ⟨?_, ?_, ?_, ?_, ?_, ?_⟩
  · rintro (h | h) <;> rw [hdod, h]
    · exact pctOf_ref_none _
    · exact pctOf_ref_zero _
  · intro t p ht hp hpne
    rw [hdod, ht, hp, pctOf_some hpne]
  · intro q hq
    exact pctOf_eq_some (hdod ▸ hq)
  · rintro (h | h) <;> rw [hvs, h]
    · exact pctOf_ref_none _
    · exact pctOf_ref_zero _
  · intro t p ht hp hpne
    rw [hvs, ht, hp, pctOf_some hpne]
  · intro q hq
    exact pctOf_eq_some (hvs ▸ hq)

/-- Witness for C1 at a concrete input: with no flow rows at all, the
chain-level row is in the output, its previous-day reference is absent and
its day-over-day percentage is null. -/
theorem contrast_pct_null_safe_witness :
    (chainCtx [] 0 "ethereum").net_usd_p1 = none
  ∧ (chainCtx [] 0 "ethereum").net_dod_pct = none := by
  have hmem : chainCtx [] 0 "ethereum" ∈ fetchContrastRows [] 0 "ethereum" :=
    mem_fetchContrastRows_iff.mpr (Or.inl rfl)
  exact ⟨rfl, (contrast_pct_null_safe [] 0 "ethereum" _ hmem).1 (Or.inl rfl)⟩

/-! ## Claim C2: output ordering -/

theorem levelKey_of_bridge {b : ContrastRow} (h : b.level = "_BRIDGE") :
    levelKey b = 1 := by
  simp [levelKey, h]

theorem levelKey_of_chainCtx (flows : List FlowRecord) (d : Int) (c : String) :
    levelKey (chainCtx flows d c) = 0 := by
  simp [levelKey, chainCtx_level]

theorem bridgeCtx_level {flows : List FlowRecord} {d : Int} {c : String}
    {b : ContrastRow} (hb : b ∈ bridgeCtx flows d c) : b.level = "_BRIDGE" := by
  rcases bridgeCtx_mem_iff.mp hb with ⟨k, _, rfl⟩
  exact bridgeRow_level flows d c k

theorem fetch_head_tail (flows : List FlowRecord) (d : Int) (c : String) :
    ∃ t, fetchContrastRows flows d c = chainCtx flows d c :: t
      ∧ t.Perm (bridgeCtx flows d c) ∧ t.Pairwise rowLE := by
  have hperm := List.perm_insertionSort rowLE (chainCtx flows d c :: bridgeCtx flows d c)
  have hsort := List.sorted_insertionSort rowLE (chainCtx flows d c :: bridgeCtx flows d c)
  cases hLc : List.insertionSort rowLE (chainCtx flows d c :: bridgeCtx flows d c) with
  | nil =>
    rw [hLc] at hperm
    exact absurd hperm.length_eq (by simp)
  | cons x t =>
    rw [hLc] at hperm hsort
    have hx : x = chainCtx flows d c := by
      have hxmem : x ∈ chainCtx flows d c :: bridgeCtx flows d c :=
        hperm.mem_iff.mp (List.mem_cons_self x t)
      rcases List.mem_cons.mp hxmem with h | h
      · exact h
    -- if the head were a bridge row, the chain row would sit below it,
    -- contradicting sortedness
      · exfalso
        have hxlevel : levelKey x = 1 := levelKey_of_bridge (bridgeCtx_level h)
        have hchmem : chainCtx flows d c ∈ x :: t :=
          hperm.mem_iff.mpr (List.mem_cons_self _ _)
        rcases List.mem_cons.mp hchmem with hch | hch
        · have : levelKey x = 0 := by rw [← hch]; exact levelKey_of_chainCtx flows d c
          omega
        · have hle : rowLE x (chainCtx flows d c) :=
            (List.pairwise_cons.mp hsort).1 _ hch
          rcases hle with hlt | ⟨heq, _⟩
          · rw [hxlevel, levelKey_of_chainCtx] at hlt
            omega
          · rw [hxlevel, levelKey_of_chainCtx] at heq
            omega
    subst hx
    exact ⟨t, by rw [fetchContrastRows, hLc], hperm.cons_inv,
      (List.pairwise_cons.mp hsort).2⟩

/-- C2 counterexample: two flow-record lists holding the same rows (one is
a permutation of the other) whose bridge-level rows tie on absolute
today-net.  The query's `ORDER BY` names no tie-break after
`ABS(COALESCE(net_usd_d,0)) DESC`, so the tied rows keep their incoming
order and the two runs return differently ordered row sets: the output
order is not a function of the input data alone, and in particular ties
are not broken by bridge/token identifier. -/
theorem contrast_order_counterexample :
    ([⟨10, "ethereum", "alpha", "USDC", 1, 0, 1, 1, 1⟩,
      ⟨10, "ethereum", "beta", "USDC", 1, 0, 1, 1, 1⟩] : List FlowRecord).Perm
      [⟨10, "ethereum", "beta", "USDC", 1, 0, 1, 1, 1⟩,
       ⟨10, "ethereum", "alpha", "USDC", 1, 0, 1, 1, 1⟩]
  ∧ fetchContrastRows
      [⟨10, "ethereum", "alpha", "USDC", 1, 0, 1, 1, 1⟩,
       ⟨10, "ethereum", "beta", "USDC", 1, 0, 1, 1, 1⟩] 10 "ethereum"
    ≠ fetchContrastRows
      [⟨10, "ethereum", "beta", "USDC", 1, 0, 1, 1, 1⟩,
       ⟨10, "ethereum", "alpha", "USDC", 1, 0, 1, 1, 1⟩] 10 "ethereum" := by
  constructor
  · exact List.Perm.swap _ _ _
  · simp [fetchContrastRows, chainCtx, bridgeCtx, bridgeRow, flowsOn, flowsWindow,
      daysOf, keysOf, keyOf, groupOf, sqlSumQ, sqlSumI, sqlAvgQ, pctOf, safeDivide,
      optSub, nullifZero, chainTotalNet, bridgeNetD, levelKey, absNetKey, rowLE,
      List.insertionSort, List.orderedInsert]

/-- C2 (amended): the Evidence Aggregator's row set always starts with the
single chain-level row, followed by the bridge-level rows ordered by
descending absolute today-net; the query specifies no further tie-break,
so rows with equal absolute today-net appear in an unspecified relative
order (the embedding fixes one by stable sorting) and the order is not a
function of the input data alone. -/
theorem contrast_order_amended (flows : List FlowRecord) (d : Int) (c : String) :
    (fetchContrastRows flows d c).head? = some (chainCtx flows d c)
  ∧ (fetchContrastRows flows d c).tail.Perm (bridgeCtx flows d c)
  ∧ (fetchContrastRows flows d c).tail.Pairwise
      (fun a b => absNetKey b ≤ absNetKey a)
  ∧ ((fetchContrastRows flows d c).filter (fun r => r.level == "_CHAIN")).length = 1 := by
  obtain ⟨t, hL, hperm, hpw⟩ := fetch_head_tail flows d c
  refine ⟨by rw [hL]; rfl, by rw [hL]; exact hperm, ?_, ?_⟩
  · rw [hL]
    show t.Pairwise (fun a b => absNetKey b ≤ absNetKey a)
    refine hpw.imp_of_mem ?_
    intro a b ha hb hab
    have hla : levelKey a = 1 :=
      levelKey_of_bridge (bridgeCtx_level (hperm.mem_iff.mp ha))
    have hlb : levelKey b = 1 :=
      levelKey_of_bridge (bridgeCtx_level (hperm.mem_iff.mp hb))
    rcases hab with hlt | ⟨_, hge⟩
    · rw [hla, hlb] at hlt; omega
    · exact hge
  · rw [hL]
    have hfil : (t.filter (fun r => r.level == "_CHAIN")).Perm
        ((bridgeCtx flows d c).filter (fun r => r.level == "_CHAIN")) :=
      hperm.filter _
    have hnil : (bridgeCtx flows d c).filter (fun r => r.level == "_CHAIN") = [] := by
      rw [List.filter_eq_nil_iff]
      intro b hb
      simp [bridgeCtx_level hb]
    rw [List.filter_cons]
    simp only [chainCtx_level]
    rw [if_pos (by simp)]
    simp [hfil.length_eq, hnil]

/-! ## Claim C3: reconciliation invariant -/

theorem bridgeCtx_map_netD (flows : List FlowRecord) (d : Int) (c : String) :
    (bridgeCtx flows d c).map (fun b => b.net_usd_d.getD 0)
      = (keysOf (flowsOn flows d c)).map (bridgeNetD flows d c) := by
  unfold bridgeCtx
  rw [List.map_map]
  apply List.map_congr_left
  intro k hk
  simp [Function.comp, bridgeRow_net_usd_d hk]

/-- C3: for every flow-record set and every (day, chain), the chain-level
row's today-net equals the SQL `SUM` of the bridge-level rows' today-nets
(both are NULL exactly when no flow rows exist for the day, and otherwise
both carry the same total); moreover no bridge-level row has a NULL
today-net, so reading the bridge values as plain rationals is faithful. -/
theorem chain_net_reconciliation (flows : List FlowRecord) (d : Int) (c : String) :
    (chainCtx flows d c).net_usd_d
      = sqlSumQ ((bridgeCtx flows d c).map (fun b => b.net_usd_d.getD 0))
  ∧ ∀ b ∈ bridgeCtx flows d c, b.net_usd_d ≠ none := by
  constructor
  · rw [bridgeCtx_map_netD]
    show sqlSumQ ((flowsOn flows d c).map (fun r => r.net_amount_usd)) = _
    by_cases h : flowsOn flows d c = []
    · rw [h]
      simp [keysOf, sqlSumQ]
    · have hkeys : keysOf (flowsOn flows d c) ≠ [] :=
        fun hk => h ((keysOf_eq_nil_iff _).mp hk)
      rw [sqlSumQ_ne_nil (by simpa [List.map_eq_nil_iff] using h),
        sqlSumQ_ne_nil (by simpa [List.map_eq_nil_iff] using hkeys)]
      exact congrArg some (sum_over_keysOf (flowsOn flows d c)
        (fun r => r.net_amount_usd)).symm
  · intro b hb
    rcases bridgeCtx_mem_iff.mp hb with ⟨k, hk, rfl⟩
    rw [bridgeRow_net_usd_d hk]
    simp

/-- Witness for C3 at a concrete input: a single flow row, showing the
bridge-level today-net of its group is non-null. -/
theorem chain_net_reconciliation_witness :
    (bridgeRow [⟨10, "ethereum", "alpha", "USDC", 1, 0, 1, 1, 1⟩] 10 "ethereum"
      ("alpha", "USDC")).net_usd_d ≠ none := by
  apply (chain_net_reconciliation [⟨10, "ethereum", "alpha", "USDC", 1, 0, 1, 1, 1⟩]
    10 "ethereum").2
  exact bridgeCtx_mem_iff.mpr ⟨("alpha", "USDC"), by decide, rfl⟩

/-! ## Claim C4: share-of-chain -/

theorem bridgeRow_share (flows : List FlowRecord) (d : Int) (c : String)
    (k : String × String) :
    (bridgeRow flows d c k).net_share_of_chain
      = safeDivide (bridgeRow flows d c k).net_usd_d
          (nullifZero (chainTotalNet flows d c)) := rfl

/-- C4: `net_share_of_chain` is null on the chain-level row; on each
bridge-level row it is that row's today-net divided by the chain total
computed as the sum over the bridge-level groups, null when that total is
zero; and when the total is nonzero the bridge-level shares sum to exactly
1. -/
theorem net_share_of_chain_props (flows : List FlowRecord) (d : Int) (c : String) :
    (chainCtx flows d c).net_share_of_chain = none
  ∧ (∀ b ∈ bridgeCtx flows d c,
      (chainTotalNet flows d c = some 0 → b.net_share_of_chain = none)
      ∧ ∀ T, chainTotalNet flows d c = some T → T ≠ 0 →
          b.net_share_of_chain = some (b.net_usd_d.getD 0 / T))
  ∧ ∀ T, chainTotalNet flows d c = some T → T ≠ 0 →
      ((bridgeCtx flows d c).map (fun b => b.net_share_of_chain.getD 0)).sum = 1 := by
  have hshare : ∀ k ∈ keysOf (flowsOn flows d c), ∀ T,
      chainTotalNet flows d c = some T → T ≠ 0 →
      (bridgeRow flows d c k).net_share_of_chain
        = some (bridgeNetD flows d c k / T) := by
    intro k hk T hT hTne
    rw [bridgeRow_share, bridgeRow_net_usd_d hk, hT]
    simp [nullifZero, safeDivide, hTne]
  refine ⟨rfl, ?_, ?_⟩
  · intro b hb
    rcases bridgeCtx_mem_iff.mp hb with ⟨k, hk, rfl⟩
    constructor
    · intro h0
      rw [bridgeRow_share, h0]
      simp [nullifZero, safeDivide]
    · intro T hT hTne
      rw [hshare k hk T hT hTne, bridgeRow_net_usd_d hk]
      simp
  · intro T hT hTne
    have hTsum : T = ((keysOf (flowsOn flows d c)).map (bridgeNetD flows d c)).sum := by
      by_cases h : keysOf (flowsOn flows d c) = []
      · rw [chainTotalNet, h] at hT
        simp [sqlSumQ] at hT
      · rw [chainTotalNet, sqlSumQ_ne_nil (by simpa [List.map_eq_nil_iff] using h)] at hT
        exact (Option.some_inj.mp hT).symm
    have hmap : (bridgeCtx flows d c).map (fun b => b.net_share_of_chain.getD 0)
        = (keysOf (flowsOn flows d c)).map (fun k => bridgeNetD flows d c k * T⁻¹) := by
      unfold bridgeCtx
      rw [List.map_map]
      apply List.map_congr_left
      intro k hk
      simp [Function.comp, hshare k hk T hT hTne, div_eq_mul_inv]
    rw [hmap, List.sum_map_mul_right, ← hTsum, mul_inv_cancel₀ hTne]

/-- Witness for C4 at a concrete input: one flow row with net 1; the chain
total is 1, the chain-level share is null and the bridge shares sum to 1. -/
theorem net_share_of_chain_props_witness :
    (chainCtx [⟨10, "ethereum", "alpha", "USDC", 1, 0, 1, 1, 1⟩]
        10 "ethereum").net_share_of_chain = none
  ∧ ((bridgeCtx [⟨10, "ethereum", "alpha", "USDC", 1, 0, 1, 1, 1⟩]
        10 "ethereum").map (fun b => b.net_share_of_chain.getD 0)).sum = 1 := by
  have hT : chainTotalNet [⟨10, "ethereum", "alpha", "USDC", 1, 0, 1, 1, 1⟩]
      10 "ethereum" = some 1 := by
    norm_num [chainTotalNet, keysOf, keyOf, flowsOn, groupOf, bridgeNetD, sqlSumQ]
  exact ⟨(net_share_of_chain_props _ 10 "ethereum").1,
    (net_share_of_chain_props _ 10 "ethereum").2.2 1 hT (by norm_num)⟩

/-! ## Claim C6: the Anomaly Classifier `_fetch_anom_bridges` -/

/-- One row of the optional `bridge_flows_anoms` view. -/
structure AnomRow where
  day : Int
  chain : String
  bridge : String
  zscore_30d : ℚ
  net_usd : ℚ
  is_anom_bridge : Bool
deriving DecidableEq, Repr

/-- The `WHERE` clause: `day = DATE(@d) AND chain = @c AND is_anom_bridge`. -/
def anomMatch (d : Int) (c : String) (r : AnomRow) : Bool :=
  r.day == d && r.chain == c && r.is_anom_bridge

/-- The `ORDER BY ABS(zscore_30d) DESC, ABS(net_usd) DESC` order. -/
def anomLE (a b : AnomRow) : Prop :=
  |b.zscore_30d| < |a.zscore_30d| ∨
    (|a.zscore_30d| = |b.zscore_30d| ∧ |b.net_usd| ≤ |a.net_usd|)

instance : DecidableRel anomLE := fun a b => by
  unfold anomLE; infer_instance

instance : IsTotal AnomRow anomLE where
  total a b := by
    unfold anomLE
    rcases lt_trichotomy |a.zscore_30d| |b.zscore_30d| with h | h | h
    · exact Or.inr (Or.inl h)
    · rcases le_total |b.net_usd| |a.net_usd| with h2 | h2
      · exact Or.inl (Or.inr ⟨h, h2⟩)
      · exact Or.inr (Or.inr ⟨h.symm, h2⟩)
    · exact Or.inl (Or.inl h)

instance : IsTrans AnomRow anomLE where
  trans a b c hab hbc := by
    unfold anomLE at *
    rcases hab with h1 | ⟨h1, h1'⟩
    · rcases hbc with h2 | ⟨h2, _⟩
      · exact Or.inl (h2.trans h1)
      · exact Or.inl (by rw [← h2]; exact h1)
    · rcases hbc with h2 | ⟨h2, h2'⟩
      · exact Or.inl (by rw [h1]; exact h2)
      · exact Or.inr ⟨h1.trans h2, h2'.trans h1'⟩

/-- `_fetch_anom_bridges`: the whole body runs inside `try/except`, and any
failure — including the view not existing — returns `[]`.  The view (or
its unavailability) is the `Option`-valued oracle argument. -/
def fetch_anom_bridges (view : Option (List AnomRow)) (d : Int) (c : String) :
    List String :=
  match view with
  | none => []
  | some rows =>
    ((List.insertionSort anomLE (rows.filter (anomMatch d c))).map
      (fun r => r.bridge)).take 12

/-- C6: the Anomaly Classifier returns the bridges flagged anomalous in
the signal view, ranked by descending absolute 30-day z-score then
descending absolute net USD (the sorted selection is a permutation of the
matching rows), capped at 12; a missing view or failing query yields `[]`
without an exception, and zero matching rows likewise yield `[]`. -/
theorem fetch_anom_bridges_props (view : Option (List AnomRow)) (d : Int)
    (c : String) :
    (view = none → fetch_anom_bridges view d c = [])
  ∧ ∀ rows, view = some rows →
      (rows.filter (anomMatch d c) = [] → fetch_anom_bridges view d c = [])
      ∧ (fetch_anom_bridges view d c).length ≤ 12
      ∧ fetch_anom_bridges view d c
          = ((List.insertionSort anomLE (rows.filter (anomMatch d c))).map
              (fun r => r.bridge)).take 12
      ∧ (List.insertionSort anomLE (rows.filter (anomMatch d c))).Perm
          (rows.filter (anomMatch d c))
      ∧ (List.insertionSort anomLE (rows.filter (anomMatch d c))).Pairwise anomLE := by
  constructor
  · rintro rfl; rfl
  · rintro rows rfl
    refine ⟨?_, ?_, rfl, List.perm_insertionSort _ _,
      List.sorted_insertionSort _ _⟩
    · intro h
      simp [fetch_anom_bridges, h]
    · show (((List.insertionSort anomLE (rows.filter (anomMatch d c))).map
        (fun r => r.bridge)).take 12).length ≤ 12
      rw [List.length_take]
      exact min_le_left _ _

/-- Witness for C6: a missing view and a present-but-empty view both give
the empty bridge set. -/
theorem fetch_anom_bridges_props_witness :
    fetch_anom_bridges none 0 "ethereum" = []
  ∧ fetch_anom_bridges (some []) 0 "ethereum" = [] :=
  ⟨(fetch_anom_bridges_props none 0 "ethereum").1 rfl,
    ((fetch_anom_bridges_props (some []) 0 "ethereum").2 [] rfl).1 rfl⟩

/-! ## Claim C5: the text-heuristic classifier `decide_has_anomaly` -/

/-- Python's `str.lower()`, modelled as per-character lowering (exact for
the ASCII keywords involved; the CJK keyword characters are unaffected by
lowering in both models). -/
def pyLower (s : String) : String :=
  ⟨s.data.map Char.toLower⟩

/-- Python's substring test `pat in s` on character lists: `pat` occurs
contiguously in the list. -/
def hasSub (pat : List Char) : List Char → Bool
  | [] => pat.isEmpty
  | c :: rest => pat.isPrefixOf (c :: rest) || hasSub pat rest

/-- `pat in s` for strings. -/
def strContains (s pat : String) : Bool :=
  hasSub pat.data s.data

/-- The negative keywords of `decide_has_anomaly` (`bad` in the source). -/
def badKeywords : List String :=
  ["anomal", "abnormal", "irregular", "异常", "显著"]

/-- The negation phrases of `decide_has_anomaly` (`good` in the source). -/
def goodPhrases : List String :=
  ["no anomaly", "no significant", "未发现显著异常"]

/-- `decide_has_anomaly` from `src/attest/attest.py`: empty input is not
anomalous; a negation phrase takes precedence and yields `false`; else a
negative keyword yields `true`; else `false`. -/
def decide_has_anomaly (summary : String) : Bool :=
  if summary == "" then false
  else
    let s := pyLower summary
    if goodPhrases.any (fun g => strContains s g) then false
    else if badKeywords.any (fun b => strContains s b) then true
    else false

/-- C5: for every summary string the classifier returns `false` when any
negation phrase occurs (negation precedence, regardless of keywords),
`true` when a negative keyword occurs and no negation phrase does, and
`false` when no negative keyword occurs at all — in particular on the
empty string. -/
theorem decide_has_anomaly_props (s : String) :
    (goodPhrases.any (fun g => strContains (pyLower s) g) = true →
      decide_has_anomaly s = false)
  ∧ (badKeywords.any (fun b => strContains (pyLower s) b) = true →
     goodPhrases.any (fun g => strContains (pyLower s) g) = false →
      decide_has_anomaly s = true)
  ∧ (badKeywords.any (fun b => strContains (pyLower s) b) = false →
      decide_has_anomaly s = false)
  ∧ decide_has_anomaly "" = false := by
  by_cases hs : s = ""
  · subst hs
    exact ⟨fun _ => rfl, fun h1 _ => absurd h1 (by decide), fun _ => rfl, rfl⟩
  · have hbeq : (s == "") = false := by simp [hs]
    refine ⟨?_, ?_, ?_, rfl⟩
    · intro h1
      simp [decide_has_anomaly, hbeq, h1]
    · intro h1 h2
      simp [decide_has_anomaly, hbeq, h1, h2]
    · intro h1
      simp [decide_has_anomaly, hbeq, h1]

/-- Witness for C5 on the spec's example narratives: negation precedence
beats the keyword "irregular", and a keyword with no negation is
anomalous. -/
theorem decide_has_anomaly_props_witness :
    decide_has_anomaly "No anomaly despite irregular-looking totals." = false
  ∧ decide_has_anomaly "We observed a significant anomaly in bridge flows." = true := by
  constructor
  · exact (decide_has_anomaly_props _).1 (by decide)
  · exact (decide_has_anomaly_props _).2.1 (by decide) (by decide)

/-! ## Claim C9: `_fetch_bridge_evidence` and `_fallback_summary` -/

/-- BigQuery `ROUND(x, 2)`: round half away from zero at two decimals. -/
def round2 (q : ℚ) : ℚ :=
  (if 0 ≤ q then ((⌊q * 100 + 1 / 2⌋ : ℤ) : ℚ) else -((⌊-(q * 100) + 1 / 2⌋ : ℤ) : ℚ)) / 100

/-- One result dict of `_fetch_bridge_evidence` (and, in the fallback
formatter, any dict-shaped evidence row).  A `none` field models an absent
dictionary key, so Python's `dict.get` defaults apply. -/
structure EvRow where
  chain : Option String
  day : Option Int
  bridge : Option String
  token_symbol : Option String
  in_usd : Option ℚ
  out_usd : Option ℚ
  net_usd : Option ℚ
  net_amount_usd : Option ℚ
  tx_count : Option Int
  unique_wallets : Option Int
deriving DecidableEq, Repr

/-- The `ORDER BY ABS(net_usd) DESC` order of `_fetch_bridge_evidence`. -/
def evLE (a b : EvRow) : Prop :=
  |b.net_usd.getD 0| ≤ |a.net_usd.getD 0|

instance : DecidableRel evLE := fun a b => by
  unfold evLE; infer_instance

instance : IsTotal EvRow evLE where
  total _ _ := le_total _ _

instance : IsTrans EvRow evLE where
  trans _ _ _ hab hbc := hbc.trans hab

/-- The `SELECT` list of `_fetch_bridge_evidence` for one
`(bridge, token_symbol)` group. -/
def mkEvRow (d : Int) (c : String) (k : String × String)
    (grp : List FlowRecord) : EvRow :=
  { chain := some c
    day := some d
    bridge := some k.1
    token_symbol := some k.2
    in_usd := (sqlSumQ (grp.map (fun r => r.in_amount_usd))).map round2
    out_usd := (sqlSumQ (grp.map (fun r => r.out_amount_usd))).map round2
    net_usd := (sqlSumQ (grp.map (fun r => r.net_amount_usd))).map round2
    net_amount_usd := none
    tx_count := sqlSumI (grp.map (fun r => r.tx_count))
    unique_wallets := sqlSumI (grp.map (fun r => r.unique_wallets)) }

/-- The `WHERE` clause of `_fetch_bridge_evidence`: the
`AND bridge IN UNNEST(@bridges)` filter is present only when the Python
`bridges` argument is truthy (not `None` and non-empty). -/
def evSelRows (flows : List FlowRecord) (d : Int) (c : String)
    (bridges : Option (List String)) : List FlowRecord :=
  match bridges with
  | none => flowsOn flows d c
  | some bs =>
    if bs.isEmpty then flowsOn flows d c
    else (flowsOn flows d c).filter (fun r => bs.contains r.bridge)

/-- `_fetch_bridge_evidence`: group by `(bridge, token_symbol)`, order by
descending absolute net, `LIMIT limit`. -/
def fetch_bridge_evidence (flows : List FlowRecord) (d : Int) (c : String)
    (bridges : Option (List String)) (limit : Nat) : List EvRow :=
  ((List.insertionSort evLE ((keysOf (evSelRows flows d c bridges)).map
    (fun k => mkEvRow d c k (groupOf (evSelRows flows d c bridges) k)))).take limit)

/-- Python `repr`-style rendering used by the fallback f-string: an absent
key renders via the `get` default, a missing string key renders as
`None`.  Rational values render with Lean's `toString`; this stands in for
Python's float formatting and does not affect any stated property. -/
def pyShowOptStr : Option String → String
  | none => "None"
  | some s => s

def pyShowIntD0 : Option Int → String
  | none => "0"
  | some n => toString n

def evNetShown (r : EvRow) : String :=
  match r.net_usd with
  | some q => toString q
  | none =>
    match r.net_amount_usd with
    | some q => toString q
    | none => "0"

/-- One bullet line of `_fallback_summary`. -/
def evItemLine (r : EvRow) : String :=
  "- " ++ pyShowOptStr r.chain ++ "/" ++ pyShowOptStr r.bridge ++ " "
    ++ pyShowOptStr r.token_symbol ++ ": net≈" ++ evNetShown r
    ++ ", tx=" ++ pyShowIntD0 r.tx_count
    ++ ", wallets=" ++ pyShowIntD0 r.unique_wallets

/-- `_fallback_summary` from `src/cloudrun/main.py`: header with the
reason in the conclusion line, the first five evidence rows as bullets
(or a `none` marker), and a fixed action line. -/
def _fallback_summary (day_iso : String) (rows : List EvRow) (reason : String) :
    String :=
  let head := "[Cross-Chain Flow Briefing | " ++ day_iso ++ "]\nConclusion: "
    ++ reason ++ "."
  let body :=
    if rows.isEmpty then "Top flows: none."
    else "Top flows:\n" ++ String.intercalate "\n" ((rows.take 5).map evItemLine)
  let tail := "Action: keep watching major bridges/tokens; set threshold alerts for large addresses."
  String.intercalate "\n" [head, body, tail]

theorem fallback_summary_unfold (day_iso : String) (rows : List EvRow)
    (reason : String) :
    _fallback_summary day_iso rows reason
      = "[Cross-Chain Flow Briefing | " ++ day_iso ++ "]\nConclusion: "
          ++ reason ++ "." ++ "\n"
        ++ (if rows.isEmpty then "Top flows: none."
            else "Top flows:\n" ++ String.intercalate "\n" ((rows.take 5).map evItemLine))
        ++ "\n"
        ++ "Action: keep watching major bridges/tokens; set threshold alerts for large addresses." := by
  show String.intercalate.go _ "\n" _ = _
  rw [String.intercalate.go, String.intercalate.go, String.intercalate.go]

theorem pairwise_take_drop {α : Type} {R : α → α → Prop} {l : List α}
    (hp : l.Pairwise R) (n : Nat) :
    ∀ x ∈ l.take n, ∀ y ∈ l.drop n, R x y := by
  rw [← List.take_append_drop n l] at hp
  exact (List.pairwise_append.mp hp).2.2

theorem fetch_bridge_evidence_sorted (flows : List FlowRecord) (d : Int)
    (c : String) (bridges : Option (List String)) (limit : Nat) :
    (fetch_bridge_evidence flows d c bridges limit).Pairwise evLE :=
  List.Pairwise.sublist (List.take_sublist _ _) (List.sorted_insertionSort _ _)

/-- C9: the fallback summary is non-empty, contains the fallback reason
verbatim in its conclusion line, depends only on the first five evidence
rows, and when the evidence comes from `_fetch_bridge_evidence` (ordered
by descending absolute net) those five rows dominate all remaining rows in
absolute net.  The construction is a total function of its inputs (it
cannot raise and two runs on the same input give the same text), including
on the empty evidence list. -/
theorem fallback_summary_props (day_iso reason : String) (rows : List EvRow) :
    _fallback_summary day_iso rows reason ≠ ""
  ∧ (∃ pre post, _fallback_summary day_iso rows reason
      = pre ++ ("Conclusion: " ++ reason ++ ".") ++ post)
  ∧ _fallback_summary day_iso rows reason
      = _fallback_summary day_iso (rows.take 5) reason
  ∧ (∀ flows d c bridges limit,
      rows = fetch_bridge_evidence flows d c bridges limit →
      ∀ x ∈ rows.take 5, ∀ y ∈ rows.drop 5,
        |y.net_usd.getD 0| ≤ |x.net_usd.getD 0|) := by
  refine ⟨?_, ?_, ?_, ?_⟩
  · intro h
    have hd := congrArg String.data h
    rw [fallback_summary_unfold] at hd
    simp [String.data_append] at hd
  · refine ⟨"[Cross-Chain Flow Briefing | " ++ day_iso ++ "]" ++ "\n",
      "\n" ++ (if rows.isEmpty then "Top flows: none."
          else "Top flows:\n" ++ String.intercalate "\n" ((rows.take 5).map evItemLine))
        ++ "\n"
        ++ "Action: keep watching major bridges/tokens; set threshold alerts for large addresses.",
      ?_⟩
    rw [fallback_summary_unfold]
    apply String.ext
    simp [String.data_append]
  · rw [fallback_summary_unfold, fallback_summary_unfold]
    rcases rows with _ | ⟨r, rest⟩
    · rfl
    · simp [List.take_take]
  · rintro flows d c bridges limit rfl
    exact pairwise_take_drop (fetch_bridge_evidence_sorted flows d c bridges limit) 5

/-- Witness for C9: the empty-evidence fallback is non-empty, and the
take-5/drop-5 domination holds for a concretely fetched evidence list. -/
theorem fallback_summary_props_witness :
    _fallback_summary "2024-01-15" [] "No significant anomaly" ≠ ""
  ∧ ∀ x ∈ (fetch_bridge_evidence [] 0 "ethereum" none 20).take 5,
      ∀ y ∈ (fetch_bridge_evidence [] 0 "ethereum" none 20).drop 5,
        |y.net_usd.getD 0| ≤ |x.net_usd.getD 0| :=
  ⟨(fallback_summary_props "2024-01-15" "No significant anomaly" []).1,
    (fallback_summary_props "2024-01-15" "No significant anomaly" _).2.2.2
      [] 0 "ethereum" none 20 rfl⟩

/-! ## Claim C8: the `explain` entrypoint -/

/-- The request as seen through `_get_param`: a `some` value models a
truthy query/body value for the key, `none` a missing or falsy one (in
which case the source falls back to the default via `or`). -/
structure ExplainRequest where
  day : Option String
  chain : Option String

/-- The outcome of every external call `explain` makes, supplied as
oracles: `Except.error ()` models the call raising.  The `vertex*Text`
fields carry `getattr(resp, "text", None)` when the generation call
returns.  `mergeOutcome` and `notifyOutcome` are consumed by `try/except`
blocks whose failure is logged and absorbed, so they appear here but
cannot influence the result. -/
structure ExplainEnv where
  yesterday : String
  modelName : String
  revision : String
  sendOnFallback : Bool
  anomBridges : Except Unit (List String)
  evidence : Except Unit (List EvRow)
  vertexAnomText : Except Unit (Option String)
  contrast : Except Unit (List ContrastRow)
  vertexRoutineText : Except Unit (Option String)
  topsEvidence : Except Unit (List EvRow)
  mergeOutcome : Except Unit Unit
  notifyOutcome : Except Unit Unit

/-- The JSON body and HTTP status of the `explain` response. -/
structure ExplainResponse where
  ok : Bool
  day : String
  chain : String
  rev : String
  wrote : Bool
  fallback : Bool
  reason : String
  rows : Nat
  model : String
  status : Nat
deriving DecidableEq, Repr

/-- The observable outcome of one `explain` invocation: the HTTP response
plus the briefing text handed to `_merge_briefing`. -/
structure ExplainOutcome where
  resp : ExplainResponse
  storedText : String
deriving DecidableEq, Repr

/-- A `try/except` block that falls back to `[]`. -/
def exceptList {α : Type} (e : Except Unit (List α)) : List α :=
  match e with
  | .ok v => v
  | .error _ => []

/-- The generation `try` block: `text = (getattr(resp, "text", None) or
"").strip()`, raising on an exception or empty text; `none` is the
caught-failure case. -/
def vertexText (e : Except Unit (Option String)) : Option String :=
  match e with
  | .error _ => none
  | .ok t =>
    let txt := (t.getD "").trim
    if txt == "" then none else some txt

/-- The `explain` entrypoint of `src/cloudrun/main.py`.  Anomalous bridges
route to the anomaly narrative (falling back on generation failure);
otherwise the contrast evidence routes to the routine narrative (fetching
top evidence and falling back on failure).  Persistence and notification
failures are absorbed and the function always produces an HTTP 200
response with `ok = true`. -/
def explain (env : ExplainEnv) (req : ExplainRequest) : ExplainOutcome :=
  let day := req.day.getD env.yesterday
  let chain := pyLower (req.chain.getD "ethereum")
  let bridges := exceptList env.anomBridges
  if bridges.isEmpty then
    let contrastRows := exceptList env.contrast
    match vertexText env.vertexRoutineText with
    | some txt =>
      { resp :=
          { ok := true
            day := day
            chain := chain
            rev := env.revision
            wrote := true
            fallback := false
            reason := "no_anomaly"
            rows := contrastRows.length
            model := env.modelName
            status := 200 }
        storedText := txt }
    | none =>
      let tops := exceptList env.topsEvidence
      let text := _fallback_summary day tops "No significant anomaly"
      let rowsLen := if contrastRows.isEmpty then tops.length else contrastRows.length
      { resp :=
          { ok := true
            day := day
            chain := chain
            rev := env.revision
            wrote := true
            fallback := true
            reason := "no_anomaly_fallback"
            rows := rowsLen
            model := env.modelName
            status := 200 }
        storedText := text }
  else
    let ev := exceptList env.evidence
    match vertexText env.vertexAnomText with
    | some txt =>
      { resp :=
          { ok := true
            day := day
            chain := chain
            rev := env.revision
            wrote := true
            fallback := false
            reason := ""
            rows := ev.length
            model := env.modelName
            status := 200 }
        storedText := txt }
    | none =>
      let text := _fallback_summary day ev "Anomaly detected but model failed (fallback)"
      { resp :=
          { ok := true
            day := day
            chain := chain
            rev := env.revision
            wrote := true
            fallback := true
            reason := "vertex_failed"
            rows := ev.length
            model := env.modelName
            status := 200 }
        storedText := text }

/-- C8: for every combination of request parameters and external-call
outcomes — anomaly lookup, evidence fetch, contrast fetch, model
generation, persistence and notification each failing or succeeding — the
explain entrypoint returns HTTP 200 with `ok = true`; degradation is
visible only through the `fallback`/`reason` fields. -/
theorem explain_always_ok (env : ExplainEnv) (req : ExplainRequest) :
    (explain env req).resp.status = 200 ∧ (explain env req).resp.ok = true := by
  refine ⟨?_, ?_⟩ <;>
  · simp only [explain]
    split <;> split <;> rfl

/-! ## Claim C7: `_merge_briefing`'s snapshot truncation -/

/-- JSON scalar values occurring in serialized evidence rows
(`default=str` turns any non-serializable value into a string). -/
inductive JAtom where
  | jnum : Int → JAtom
  | jstr : String → JAtom
  | jnull : JAtom
deriving DecidableEq, Repr

/-- `json.dumps` string escaping for the characters the repository's row
values can contain (quote and backslash; control characters do not occur
in warehouse identifiers). -/
def jsonEscape (ch : Char) : List Char :=
  if ch = '"' ∨ ch = '\\' then ['\\', ch] else [ch]

def dumpsStr (s : String) : List Char :=
  '"' :: ((s.data.map jsonEscape).flatten ++ ['"'])

def dumpsAtom : JAtom → List Char
  | .jnum n => (toString n).data
  | .jstr s => dumpsStr s
  | .jnull => "null".data

/-- A dict-shaped evidence row as serialized: named scalar fields. -/
structure SnapRow where
  fields : List (String × JAtom)
deriving DecidableEq, Repr

/-- Python's `sep.join(parts)`. -/
def joinSep (sep : List Char) : List (List Char) → List Char
  | [] => []
  | [x] => x
  | x :: y :: rest => x ++ sep ++ joinSep sep (y :: rest)

theorem joinSep_single (sep x : List Char) : joinSep sep [x] = x := rfl

theorem joinSep_cons₂ (sep x y : List Char) (rest : List (List Char)) :
    joinSep sep (x :: y :: rest) = x ++ sep ++ joinSep sep (y :: rest) := rfl

/-- `json.dumps` of one dict with the default `", "` / `": "` separators. -/
def dumpsRow (r : SnapRow) : List Char :=
  Char.ofNat 123 :: (joinSep (", ".data) (r.fields.map (fun kv =>
    dumpsStr kv.1 ++ ": ".data ++ dumpsAtom kv.2)) ++ [Char.ofNat 125])

/-- `json.dumps(rows, ensure_ascii=False, default=str)` of the evidence
row list. -/
def dumpsRows (rs : List SnapRow) : List Char :=
  '[' :: (joinSep (", ".data) (rs.map dumpsRow) ++ [']'])

/-- The stored `source_rows_json` of `_merge_briefing`:
`json.dumps(rows_or_json, ensure_ascii=False, default=str)[:900000]`. -/
def storedSnapshot (rs : List SnapRow) : List Char :=
  (dumpsRows rs).take 900000

/-- Modelled from the spec: the stored snapshot "remains valid in its
serialization format" — it is either a complete serialization of some row
list (truncation at the outer container boundary, never mid-record) or it
carries an explicit "truncated" marker. -/
def specTruncationOK (stored : List Char) : Prop :=
  (∃ rs : List SnapRow, stored = dumpsRows rs) ∨
    hasSub ("truncated".data) stored = true

theorem mem_joinSep {sep : List Char} {a : Char} :
    ∀ {ls : List (List Char)}, a ∈ joinSep sep ls →
      (∃ l ∈ ls, a ∈ l) ∨ a ∈ sep := by
  intro ls
  induction ls with
  | nil =>
    intro h
    simp [joinSep] at h
  | cons x rest ih =>
    intro h
    cases rest with
    | nil =>
      exact Or.inl ⟨x, by simp, by simpa [joinSep_single] using h⟩
    | cons y t =>
      rw [joinSep_cons₂] at h
      rcases List.mem_append.mp h with h1 | h2
      · rcases List.mem_append.mp h1 with ha | hs
        · exact Or.inl ⟨x, by simp, ha⟩
        · exact Or.inr hs
      · rcases ih h2 with ⟨l, hl, hal⟩ | hs
        · exact Or.inl ⟨l, List.mem_cons_of_mem _ hl, hal⟩
        · exact Or.inr hs

theorem length_joinSep_replicate (sep x : List Char) (n : Nat) :
    (joinSep sep (List.replicate (n + 1) x)).length
      = (n + 1) * x.length + n * sep.length := by
  induction n with
  | zero => simp [joinSep_single]
  | succ m ih =>
    rw [List.replicate_succ, List.replicate_succ x m, joinSep_cons₂,
      ← List.replicate_succ, List.length_append, List.length_append, ih]
    ring

theorem isPrefixOf_subset {p l : List Char} (h : p.isPrefixOf l = true) :
    ∀ a ∈ p, a ∈ l := by
  rcases List.isPrefixOf_iff_prefix.mp h with ⟨t, rfl⟩
  intro a ha
  exact List.mem_append_left _ ha

theorem hasSub_subset {pat l : List Char} (h : hasSub pat l = true) :
    ∀ a ∈ pat, a ∈ l := by
  induction l with
  | nil =>
    unfold hasSub at h
    rw [List.isEmpty_iff] at h
    subst h
    intro a ha
    simp at ha
  | cons c rest ih =>
    unfold hasSub at h
    rw [Bool.or_eq_true] at h
    rcases h with h1 | h2
    · exact isPrefixOf_subset h1
    · intro a ha
      exact List.mem_cons_of_mem _ (ih h2 a ha)

/-- A row serializing to exactly 20 characters. -/
def snapRowUnit : SnapRow := ⟨[("k", JAtom.jstr "AAAAAAAAAAA")]⟩

/-- 40910 copies of the 20-character row: the full serialization is
900020 characters, 20 over the 900000-character budget. -/
def bigSnapRows : List SnapRow := List.replicate 40910 snapRowUnit

theorem dumpsRows_replicate (n : Nat) (r : SnapRow) :
    dumpsRows (List.replicate n r)
      = '[' :: (joinSep (", ".data) (List.replicate n (dumpsRow r)) ++ [']']) := by
  rw [dumpsRows, List.map_replicate]

theorem storedSnapshot_big_eq :
    storedSnapshot bigSnapRows
      = ('[' :: joinSep (", ".data)
          (List.replicate 40910 (dumpsRow snapRowUnit))).take 900000 := by
  rw [storedSnapshot, bigSnapRows, dumpsRows_replicate]
  rw [show ('[' :: (joinSep (", ".data) (List.replicate 40910 (dumpsRow snapRowUnit)) ++ [']']))
      = ('[' :: joinSep (", ".data) (List.replicate 40910 (dumpsRow snapRowUnit))) ++ [']']
    from rfl]
  apply List.take_append_of_le_length
  rw [List.length_cons,
    show (40910 : Nat) = 40909 + 1 from rfl,
    length_joinSep_replicate (", ".data) (dumpsRow snapRowUnit) 40909,
    show (dumpsRow snapRowUnit).length = 20 from by decide,
    show (", ".data).length = 2 from by decide]
  norm_num

theorem stored_big_mem {a : Char} (ha : a ∈ storedSnapshot bigSnapRows) :
    a = '[' ∨ a ∈ dumpsRow snapRowUnit ∨ a ∈ (", ".data) := by
  rw [storedSnapshot_big_eq] at ha
  have ha' := List.mem_of_mem_take ha
  rcases List.mem_cons.mp ha' with h | h
  · exact Or.inl h
  · rcases mem_joinSep h with ⟨l, hl, hal⟩ | hs
    · rw [List.eq_of_mem_replicate hl] at hal
      exact Or.inr (Or.inl hal)
    · exact Or.inr (Or.inr hs)

theorem rbracket_not_mem_stored : ']' ∉ storedSnapshot bigSnapRows := by
  intro h
  rcases stored_big_mem h with h | h | h
  · exact absurd h (by decide)
  · exact absurd h (by decide)
  · exact absurd h (by decide)

theorem t_not_mem_stored : 't' ∉ storedSnapshot bigSnapRows := by
  intro h
  rcases stored_big_mem h with h | h | h
  · exact absurd h (by decide)
  · exact absurd h (by decide)
  · exact absurd h (by decide)

/-- C7 counterexample: with 40910 identical 20-character evidence rows the
serialization is 900020 characters and the stored snapshot is its
900000-character prefix.  Truncation occurred and cut mid-record: the
stored value is not the serialization of any row list (it contains no
closing bracket at all) and carries no "truncated" marker, so the stored
snapshot is corrupt as JSON. -/
theorem merge_truncation_counterexample :
    storedSnapshot bigSnapRows ≠ dumpsRows bigSnapRows
  ∧ ¬ specTruncationOK (storedSnapshot bigSnapRows) := by
  have hrb := rbracket_not_mem_stored
  constructor
  · intro h
    apply hrb
    rw [h, bigSnapRows, dumpsRows_replicate]
    exact List.mem_cons_of_mem _ (List.mem_append_right _ (by simp))
  · rintro (⟨rs, hrs⟩ | hmark)
    · apply hrb
      rw [hrs, dumpsRows]
      exact List.mem_cons_of_mem _ (List.mem_append_right _ (by simp))
    · exact t_not_mem_stored (hasSub_subset hmark 't' (by decide))

/-- C7 (amended): the evidence snapshot is truncated to at most 900000
characters by a plain prefix slice; a serialization within the budget is
stored intact, but an over-budget serialization is cut mid-record with no
marker and stops being valid JSON (see the counterexample). -/
theorem storedSnapshot_props (rs : List SnapRow) :
    (storedSnapshot rs).length ≤ 900000
  ∧ ((dumpsRows rs).length ≤ 900000 → storedSnapshot rs = dumpsRows rs) := by
  constructor
  · rw [storedSnapshot, List.length_take]
    exact min_le_left _ _
  · intro h
    rw [storedSnapshot, List.take_of_length_le h]

/-- Witness for the amended C7: the empty row list's serialization (two
characters) is within budget and stored intact. -/
theorem storedSnapshot_props_witness :
    storedSnapshot [] = dumpsRows [] :=
  (storedSnapshot_props []).2 (by decide)

/-! ## Claim C10: attestation field derivation in `attest.py` -/

/-- One row read from `daily_briefings` by the attestation CLI.  An
optional field covers both an absent dictionary key and a SQL NULL, the
two cases Python's `get`-with-default plus `or` chains guard against. -/
structure BriefingRow where
  day : String
  model : Option String
  summary_text : Option String
  source_rows_json : Option String
deriving DecidableEq, Repr

/-- Python `x or d` for an optional string: `None` and `""` are falsy. -/
def pyOrStr (x : Option String) (d : String) : String :=
  match x with
  | none => d
  | some s => if s == "" then d else s

/-- `keccak32` from `src/attest/attest.py`: `Web3.keccak(text=(txt or ""))`
with the hash itself an abstract oracle `K` (an external library). -/
def keccak32 {H : Type} (K : String → H) (txt : String) : H :=
  K (if txt == "" then "" else txt)

/-- The arguments of one `publish` call (or one `[DRY]` line). -/
structure AttestFields (H : Type) where
  day : String
  chain : String
  summaryHash : H
  hasAnomaly : Bool
  evidenceRows : Nat
  model : String
  uri : String

/-- The per-row derivation in `main`'s loop:
`summary = r.get("summary_text","") or ""`,
`src_json = r.get("source_rows_json") or "[]"`,
`ev_rows = len(json.loads(src_json))` with any exception caught to 0,
`has_anom = decide_has_anomaly(summary)`, `h = keccak32(summary)`,
`uri = ""`.  `loadsLen` abstracts `len(json.loads(-))` of the external
`json` module: `none` models `loads` raising or `len` failing on the
parsed value. -/
def deriveAttest {H : Type} (K : String → H) (loadsLen : String → Option Nat)
    (chain : String) (r : BriefingRow) : AttestFields H :=
  let summary := pyOrStr r.summary_text ""
  let src := pyOrStr r.source_rows_json "[]"
  let ev_rows :=
    match loadsLen src with
    | some n => n
    | none => 0
  { day := r.day
    chain := chain
    summaryHash := keccak32 K summary
    hasAnomaly := decide_has_anomaly summary
    evidenceRows := ev_rows
    model := r.model.getD ""
    uri := "" }

/-- C10: deriving the attestation fields from a stored briefing row is
total: a `source_rows_json` that fails to parse yields
`evidenceRows = 0` instead of an exception; a missing or null snapshot
falls back to the `"[]"` default, whose parse is the empty list, likewise
giving 0; and a missing or null `summary_text` is treated as the empty
string, deriving the hash of `""` and `hasAnomaly = false`. -/
theorem deriveAttest_total {H : Type} (K : String → H)
    (loadsLen : String → Option Nat) (chain : String) (r : BriefingRow) :
    (loadsLen (pyOrStr r.source_rows_json "[]") = none →
      (deriveAttest K loadsLen chain r).evidenceRows = 0)
  ∧ ((r.source_rows_json = none ∨ r.source_rows_json = some "") →
      loadsLen "[]" = some 0 →
      (deriveAttest K loadsLen chain r).evidenceRows = 0)
  ∧ ((r.summary_text = none ∨ r.summary_text = some "") →
      (deriveAttest K loadsLen chain r).summaryHash = K ""
      ∧ (deriveAttest K loadsLen chain r).hasAnomaly = false) := by
  refine ⟨?_, ?_, ?_⟩
  · intro h
    simp [deriveAttest, h]
  · rintro (h | h) hl <;> simp [deriveAttest, pyOrStr, h, hl]
  · rintro (h | h) <;>
      exact ⟨by simp [deriveAttest, pyOrStr, keccak32, h],
        by simp [deriveAttest, pyOrStr, h]; rfl⟩

/-- Witness for C10: a row with null summary and null snapshot, an
identity hash oracle and a loads oracle defined only at `"[]"`. -/
theorem deriveAttest_total_witness :
    (deriveAttest (fun s => s) (fun s => if s == "[]" then some 0 else none)
        "ethereum" ⟨"2024-01-15", none, none, none⟩).evidenceRows = 0
  ∧ (deriveAttest (fun s => s) (fun s => if s == "[]" then some 0 else none)
        "ethereum" ⟨"2024-01-15", none, none, none⟩).summaryHash = ""
  ∧ (deriveAttest (fun s => s) (fun s => if s == "[]" then some 0 else none)
        "ethereum" ⟨"2024-01-15", none, none, none⟩).hasAnomaly = false := by
  have h := deriveAttest_total (fun s => s)
    (fun s => if s == "[]" then some 0 else none)
    "ethereum" ⟨"2024-01-15", none, none, none⟩
  exact ⟨h.2.1 (Or.inl rfl) (by decide), (h.2.2 (Or.inl rfl)).1,
    (h.2.2 (Or.inl rfl)).2⟩
